import Mathlib

/-!
Verification of the smart-classroom upload / transcription pipeline
(`src/lib/fileUpload.ts` and `src/lib/transcriptionService.ts`).

JavaScript strings are modelled as `List Char` (the sources only ever
manipulate ASCII text, for which UTF-16 code units coincide with
characters).  Asynchronous, event-driven code is modelled by making the
outcome of each external event source (storage round trips, database
round trips, speech-recognition events, media-element events) an explicit
parameter, and threading the blob-store / database state through the
pipeline together with a trace of the collaborator calls that were made.
-/

/-- JavaScript string, modelled as a list of characters. -/
abbrev JStr := List Char

/-- The whitespace characters recognised here (the ASCII part of the
JavaScript regexp class `\s`; the sources only produce ASCII text). -/
def isJsWs (c : Char) : Bool :=
  c == ' ' || c == '\t' || c == '\n' || c == '\r' || c == '\x0b' || c == '\x0c'

/-- Scanner for `replace(/\s+/g, ' ')`: `inRun` records whether the
previous character belonged to a whitespace run, so that each maximal
run emits exactly one space. -/
def collapseWsAux : Bool → JStr → JStr
  | _, [] => []
  | inRun, c :: cs =>
    if isJsWs c then
      if inRun then collapseWsAux true cs
      else ' ' :: collapseWsAux true cs
    else c :: collapseWsAux false cs

/-- `transcript.replace(/\s+/g, ' ')`: every maximal run of whitespace is
replaced by a single space. -/
def collapseWs (s : JStr) : JStr := collapseWsAux false s

/-- JavaScript `String.prototype.trim` (on the modelled whitespace set). -/
def jsTrim (s : JStr) : JStr :=
  ((s.dropWhile isJsWs).reverse.dropWhile isJsWs).reverse

/-- Does the string end with sentence-terminal punctuation
(the regexp `[.!?]$`)? -/
def endsWithPunct (s : JStr) : Bool :=
  match s.getLast? with
  | some c => c == '.' || c == '!' || c == '?'
  | none => false

/-- `s.charAt(0).toUpperCase() + s.slice(1)` (a no-op on the empty string,
since `charAt(0)` of `''` is `''`). -/
def capitalizeFirst : JStr → JStr
  | [] => []
  | c :: cs => c.toUpper :: cs

/-- JavaScript `s.lastIndexOf(c)`: the largest index holding `c`,
or `-1` when `c` does not occur. -/
def lastIndexOf (s : JStr) (c : Char) : ℤ :=
  let i := s.reverse.indexOf c
  if i = s.length then -1 else ((s.length : ℤ) - 1 - (i : ℤ))

/- ----------------------------------------------------------------- -/
/- FileUploadService: validation and path generation                  -/
/- ----------------------------------------------------------------- -/

/-- The closed set of file kinds of `FileUploadService.ALLOWED_TYPES`. -/
inductive FileKind where
  | audio | pdf | presentation | document | video
deriving DecidableEq, Repr

/-- The string stored in the `file_type` column for each kind. -/
def kindName : FileKind → JStr
  | .audio => ('a' :: 'u' :: 'd' :: 'i' :: 'o' :: [])
  | .pdf => ('p' :: 'd' :: 'f' :: [])
  | .presentation => String.toList "presentation"
  | .document => String.toList "document"
  | .video => String.toList "video"

/-- `FileUploadService.ALLOWED_TYPES`, in source order. -/
def ALLOWED_TYPES : List (FileKind × List JStr) :=
  [ (FileKind.audio,
      [String.toList "audio/mpeg", String.toList "audio/wav",
       String.toList "audio/mp3", String.toList "audio/webm",
       String.toList "audio/ogg"]),
    (FileKind.pdf, [String.toList "application/pdf"]),
    (FileKind.presentation,
      [String.toList "application/vnd.ms-powerpoint",
       String.toList
         "application/vnd.openxmlformats-officedocument.presentationml.presentation"]),
    (FileKind.document,
      [String.toList "application/msword",
       String.toList
         "application/vnd.openxmlformats-officedocument.wordprocessingml.document"]),
    (FileKind.video,
      [String.toList "video/mp4", String.toList "video/webm",
       String.toList "video/ogg"]) ]

/-- `FileUploadService.MAX_FILE_SIZE = 100 * 1024 * 1024` bytes. -/
def MAX_FILE_SIZE : ℕ := 100 * 1024 * 1024

/-- A browser `File` as far as the upload pipeline inspects it. -/
structure JSFile where
  name : JStr
  mimeType : JStr   -- `file.type`
  size : ℕ          -- `file.size`, bytes
deriving DecidableEq, Repr

/-- `FileUploadService.getFileType`: first kind whose MIME list contains
the given type, else `none` (the source's `null`). -/
def getFileType (mimeType : JStr) : Option FileKind :=
  (ALLOWED_TYPES.find? (fun p => p.2.contains mimeType)).map (·.1)

/-- Error message for oversized files. -/
def sizeErrorMsg : JStr := String.toList "File size must be less than 100MB"

/-- Error message for disallowed MIME types. -/
def typeErrorMsg : JStr :=
  String.toList
    "Unsupported file type. Please upload audio, PDF, PowerPoint, or Word documents."

/-- `FileUploadService.validateFile`: `(valid, error?)`. -/
def validateFile (file : JSFile) : Bool × Option JStr :=
  if file.size > MAX_FILE_SIZE then (false, some sizeErrorMsg)
  else if (getFileType file.mimeType) = none then (false, some typeErrorMsg)
  else (true, none)

/-- Characters kept verbatim by the sanitiser (regexp `[^a-zA-Z0-9.-]`
replaces everything else by an underscore). -/
def keepChar (c : Char) : Bool :=
  (('a' ≤ c && c ≤ 'z') || ('A' ≤ c && c ≤ 'Z') || ('0' ≤ c && c ≤ '9')
    || c == '.' || c == '-')

/-- `FileUploadService.generateFilePath`: the timestamp is a parameter
(`Date.now()` in the source). -/
def generateFilePath (lectureId : JStr) (ts : ℕ) (fileName : JStr) : JStr :=
  let sanitized := fileName.map (fun c => if keepChar c then c else '_')
  (String.toList "lectures/") ++ lectureId ++ ('/' :: [])
    ++ (Nat.toDigits 10 ts) ++ ('_' :: []) ++ sanitized

/- ----------------------------------------------------------------- -/
/- TranscriptionService: formatting and summarising                   -/
/- ----------------------------------------------------------------- -/

/-- `TranscriptionService.formatTranscript`.  The source first returns
`''` for a falsy input, then collapses whitespace runs and trims, appends
a terminal period when one of `. ! ?` is missing, and finally upper-cases
the first character. -/
def formatTranscript (transcript : JStr) : JStr :=
  if transcript = [] then []
  else
    let formatted := jsTrim (collapseWs transcript)
    let formatted :=
      if formatted ≠ [] ∧ ¬ endsWithPunct formatted then formatted ++ ('.' :: [])
      else formatted
    capitalizeFirst formatted

/-- The integer significand of the IEEE-754 double nearest `0.7`
(`0.7 = 6305039478318694 / 2^53` after rounding). -/
def c07num : ℕ := 6305039478318694

/-- Number of halvings of `n` until it reaches `0`, with explicit fuel
(structural recursion, so the kernel can evaluate it). -/
def bitLenAux : ℕ → ℕ → ℕ
  | 0, _ => 0
  | fuel + 1, n => if n = 0 then 0 else bitLenAux fuel (n / 2) + 1

/-- Bit length of `n`: `0` for `0`, else `⌊log₂ n⌋ + 1`. -/
def bitLen (n : ℕ) : ℕ := bitLenAux n n

/-- Round `M / 2^s` to the nearest integer, ties to even — the rounding
step of IEEE-754 binary64 multiplication. -/
def roundHalfEvenDiv (M s : ℕ) : ℕ :=
  if s = 0 then M
  else
    let q := M / 2 ^ s
    let r := M % 2 ^ s
    if 2 ^ (s - 1) < r then q + 1
    else if r < 2 ^ (s - 1) then q
    else if q % 2 = 0 then q else q + 1

/-- The IEEE-754 double product `n * 0.7` (binary64, round to nearest,
ties to even), represented exactly as its numerator over `2^53`.  The
source compares `lastSentenceEnd > maxLength * 0.7`; since every integer
below `2^53` converts to a double exactly, that float comparison is
exactly the integer comparison
`lastSentenceEnd * 2^53 > jsMul07num maxLength`.  The float semantics is
observable: `90 * 0.7` is `63 - 64 / 2^53 < 63` while `200 * 0.7` is
exactly `140`. -/
def jsMul07num (n : ℕ) : ℕ :=
  let M := n * c07num
  if M = 0 then 0
  else
    let b := bitLen M
    if b ≤ 53 then M
    else (roundHalfEvenDiv M (b - 53)) * 2 ^ (b - 53)

/-- `TranscriptionService.generateSummary`.  `maxLength` defaults to 200
in the source; the threshold test is the JavaScript float comparison
`lastSentenceEnd > maxLength * 0.7`, written here with the denominator
`2^53` cleared. -/
def generateSummary (transcript : JStr) (maxLength : ℕ) : JStr :=
  if transcript = [] then []
  else if transcript.length ≤ maxLength then transcript
  else
    let truncated := transcript.take maxLength
    let lastSentenceEnd : ℤ :=
      max (lastIndexOf truncated '.')
        (max (lastIndexOf truncated '!') (lastIndexOf truncated '?'))
    if (jsMul07num maxLength : ℤ) < lastSentenceEnd * 2 ^ 53 then
      truncated.take (lastSentenceEnd + 1).toNat
    else truncated ++ ('.' :: '.' :: '.' :: [])

/- ----------------------------------------------------------------- -/
/- TranscriptionService: the transcription engine                     -/
/- ----------------------------------------------------------------- -/

/-- The possible behaviours of the two concurrent event sources that
drive `transcribeAudio` (the audio element and the recogniser): either
the audio element fires `onerror` before data is loaded, or the
recogniser fires `onerror`, or playback completes and the recogniser
fires `onend` having accumulated the given final results. -/
inductive LocalEvents where
  | audioError
  | recogError (code : JStr)
  | ended (finals : List JStr)
deriving DecidableEq, Repr

/-- The runtime environment a `transcribe` call runs in: the value of the
`isSupported()` capability probe (constant for the duration of a call)
and the behaviour of the local recognition session's event sources. -/
structure SpeechEnv where
  supported : Bool
  events : LocalEvents
deriving DecidableEq, Repr

/-- How a JavaScript promise can behave: settle with a value, settle with
an error, or never settle at all. -/
inductive TOutcome where
  | hangs
  | errored (msg : JStr)
  | ok (text : JStr)
deriving DecidableEq, Repr

/-- Rejection message when `isSupported()` is false. -/
def notSupportedMsg : JStr :=
  String.toList "Speech recognition not supported in this browser"

/-- Rejection message built by `recognition.onerror`. -/
def recogErrorMsg (code : JStr) : JStr :=
  (String.toList "Speech recognition error: ") ++ code

/-- The accumulation loop of `recognition.onresult`: each final result's
best transcript is appended followed by a space;
`recognition.onend` resolves with the accumulation trimmed. -/
def accumFinals (finals : List JStr) : JStr :=
  jsTrim ((finals.map (fun t => t ++ (' ' :: []))).flatten)

/-- `TranscriptionService.transcribeAudio`.  When the audio element
errors, `playAudioForRecognition` rejects an inner promise that the
source never awaits, the recogniser is never started, and the outer
promise never settles: the operation hangs rather than rejecting. -/
def transcribeAudioModel (env : SpeechEnv) : TOutcome :=
  if ¬ env.supported then .errored notSupportedMsg
  else
    match env.events with
    | .audioError => .hangs
    | .recogError code => .errored (recogErrorMsg code)
    | .ended finals => .ok (accumFinals finals)

/-- The deterministic text resolved by the mock
`transcribeWithExternalService`; it mentions the file name and is never
empty.  The mock's promise always resolves — it has no rejection path. -/
def mockTranscript (name : JStr) : JStr :=
  (String.toList "This is a mock transcription of the audio file ")
    ++ name
    ++ (String.toList ". In a real implementation, this would be replaced with actual speech-to-text conversion using an external service.")

/-- The observable behaviour of one `TranscriptionService.transcribe`
call: its outcome plus how many times each path was invoked. -/
structure TranscribeRun where
  outcome : TOutcome
  remoteCalls : ℕ
  localCalls : ℕ
deriving DecidableEq, Repr

/-- `TranscriptionService.transcribe(audioFile, useExternal)`.  The
`try` block routes to the remote path when `useExternal` is set or the
capability is unsupported, else to the local path; the `catch` block
falls back to the remote path when the capability is supported.  The
remote path is the mock above and always resolves, so the `catch` can
only be entered from a local failure. -/
def transcribe (name : JStr) (env : SpeechEnv) (useExternal : Bool) : TranscribeRun :=
  if useExternal || !env.supported then
    { outcome := .ok (mockTranscript name), remoteCalls := 1, localCalls := 0 }
  else
    match transcribeAudioModel env with
    | .hangs => { outcome := .hangs, remoteCalls := 0, localCalls := 1 }
    | .ok t => { outcome := .ok t, remoteCalls := 0, localCalls := 1 }
    | .errored m =>
      if env.supported then
        { outcome := .ok (mockTranscript name), remoteCalls := 1, localCalls := 1 }
      else
        { outcome := .errored m, remoteCalls := 0, localCalls := 1 }

/- ----------------------------------------------------------------- -/
/- FileUploadService.uploadFile: the orchestration pipeline           -/
/- ----------------------------------------------------------------- -/

/-- `transcript_status` values of the `lecture_files` schema. -/
inductive TStatus where
  | pending | processing | completed | failed
deriving DecidableEq, Repr

/-- The row `uploadFile` inserts into `lecture_files`. -/
structure DBRow where
  lecture_id : JStr
  file_name : JStr
  file_type : JStr
  file_size : ℕ
  file_path : JStr
  mime_type : JStr
  duration : Option ℕ
  is_primary : Bool
  transcript : Option JStr
  transcript_status : TStatus
deriving DecidableEq, Repr

/-- The environment one `uploadFile` call runs in: the outcome every
external collaborator call would have (`none` = success for the error
options), plus the speech environment driving any transcription. -/
structure UploadEnv where
  storagePutError : Option JStr   -- storage `upload` result beyond key clash
  dbInsertError : Option JStr     -- database `insert` result
  storageRemoveFails : Bool       -- compensating `remove` fails (result unread)
  durationResult : Option ℕ       -- `getMediaDuration`: `none` = probe failed
  speech : SpeechEnv
deriving DecidableEq, Repr

/-- Blob-store plus database state threaded through the pipeline. -/
structure WorldState where
  store : List JStr     -- keys currently present in the `lecture-files` bucket
  rows : List DBRow     -- rows of `lecture_files`
deriving DecidableEq, Repr

/-- Which collaborator calls one `uploadFile` run performed. -/
structure CallTrace where
  storagePuts : List JStr
  dbInserts : ℕ
  storageRemoves : List JStr
deriving DecidableEq, Repr

/-- The `FileUploadResult` value of the source. -/
structure FileUploadRes where
  success : Bool
  filePath : Option JStr
  error : Option JStr
deriving DecidableEq, Repr

/-- One complete `uploadFile` run: `result = none` means the returned
promise never settles (a hung transcription); the final world state and
the calls made are always recorded. -/
structure UploadRun where
  result : Option FileUploadRes
  store : List JStr
  rows : List DBRow
  trace : CallTrace
deriving DecidableEq, Repr

/-- Error message the blob store returns when the key already exists
(`upsert: false` forbids overwriting). -/
def dupKeyMsg : JStr := String.toList "The resource already exists"

/-- Outcome of the storage `upload` call: with `upsert: false` a write to
an existing key fails; otherwise the environment decides. -/
def storagePutOutcome (env : UploadEnv) (store : List JStr) (filePath : JStr) :
    Option JStr :=
  if filePath ∈ store then some dupKeyMsg else env.storagePutError

/-- The metadata-insert step and, on its failure, the compensating
storage deletion (lines 138-161 of `fileUpload.ts`): on `dbError` the
just-uploaded blob is removed (best-effort; the remove's own result is
not inspected) and a failure result carrying the database message is
returned; on success the row is appended and a success result returned. -/
def finishInsert (env : UploadEnv) (w : WorldState) (store1 : List JStr)
    (filePath : JStr) (row : DBRow) : UploadRun :=
  match env.dbInsertError with
  | some msg =>
    let store2 := if env.storageRemoveFails then store1 else store1.erase filePath
    { result := some { success := false, filePath := none, error := some msg },
      store := store2, rows := w.rows,
      trace := { storagePuts := [filePath], dbInserts := 1,
                 storageRemoves := [filePath] } }
  | none =>
    { result := some { success := true, filePath := some filePath, error := none },
      store := store1, rows := w.rows ++ [row],
      trace := { storagePuts := [filePath], dbInserts := 1, storageRemoves := [] } }

/-- Does the transcription step of this upload hang (local path chosen
and the audio element errors, so the promise never settles)? -/
def transcriptionHangs (file : JSFile) (enableTranscription : Bool)
    (env : UploadEnv) : Bool :=
  enableTranscription && (getFileType file.mimeType == some FileKind.audio)
    && ((transcribe file.name env.speech false).outcome == TOutcome.hangs)

/-- `FileUploadService.uploadFile(file, lectureId, isPrimary, _,
enableTranscription)`.  The timestamp `ts` stands for `Date.now()`.
Validation failure returns before any collaborator call; a storage
failure returns with no database call; transcription failure is contained
(status `failed`, `transcript` null); a database failure triggers the
compensating blob deletion of `finishInsert`. -/
def uploadFile (file : JSFile) (lectureId : JStr) (isPrimary : Bool)
    (enableTranscription : Bool) (ts : ℕ) (env : UploadEnv) (w : WorldState) :
    UploadRun :=
  let validation := validateFile file
  if validation.1 = false then
    { result := some { success := false, filePath := none, error := validation.2 },
      store := w.store, rows := w.rows,
      trace := { storagePuts := [], dbInserts := 0, storageRemoves := [] } }
  else
    let filePath := generateFilePath lectureId ts file.name
    match storagePutOutcome env w.store filePath with
    | some msg =>
      { result := some { success := false, filePath := none, error := some msg },
        store := w.store, rows := w.rows,
        trace := { storagePuts := [filePath], dbInserts := 0, storageRemoves := [] } }
    | none =>
      let store1 := w.store ++ [filePath]
      let fileType := getFileType file.mimeType
      let duration : Option ℕ :=
        if fileType = some FileKind.audio ∨ fileType = some FileKind.video then
          env.durationResult
        else none
      let mkRow (transcript : Option JStr) (st : TStatus) : DBRow :=
        { lecture_id := lectureId, file_name := file.name,
          file_type := (fileType.map kindName).getD (String.toList "unknown"),
          file_size := file.size, file_path := filePath,
          mime_type := file.mimeType, duration := duration,
          is_primary := isPrimary, transcript := transcript,
          transcript_status := st }
      if enableTranscription && (fileType == some FileKind.audio) then
        match (transcribe file.name env.speech false).outcome with
        | .hangs =>
          -- `await TranscriptionService.transcribe(file)` never settles:
          -- no insert is attempted, the caller's promise hangs.
          { result := none, store := store1, rows := w.rows,
            trace := { storagePuts := [filePath], dbInserts := 0,
                       storageRemoves := [] } }
        | .ok t => finishInsert env w store1 filePath
            (mkRow (some (formatTranscript t)) TStatus.completed)
        | .errored _ => finishInsert env w store1 filePath
            (mkRow none TStatus.failed)
      else finishInsert env w store1 filePath (mkRow none TStatus.pending)

/- ----------------------------------------------------------------- -/
/- Spec-side definitions (worded from the claims, for comparison)     -/
/- ----------------------------------------------------------------- -/

/-- C6 as stated: the summariser of the claim's words, whose threshold
"past position 0.7 * N" is the exact rational `7 * N / 10` — written
with the denominator cleared, `p > 7N/10 ↔ 10p > 7N`. -/
def claimSummary (text : JStr) (N : ℕ) : JStr :=
  if text.length ≤ N then text
  else
    let pre := text.take N
    let p := max (lastIndexOf pre '.')
      (max (lastIndexOf pre '!') (lastIndexOf pre '?'))
    if (7 * N : ℤ) < 10 * p then pre.take (p + 1).toNat
    else pre ++ ('.' :: '.' :: '.' :: [])

/-- The rightmost sentence-terminal punctuation in `s`, computed the
spec's way: the first terminal punctuation of the reversal. -/
def lastPunctIndexSpec (s : JStr) : ℤ :=
  match s.reverse.findIdx? (fun c => c == '.' || c == '!' || c == '?') with
  | some i => (s.length : ℤ) - 1 - (i : ℤ)
  | none => -1

/-- The amended C6 summariser: identical to the claim's words except
that the threshold is the IEEE-754 double product `N * 0.7` that the
source actually compares against. -/
def summarySpecFl (text : JStr) (N : ℕ) : JStr :=
  if text.length ≤ N then text
  else
    let pre := text.take N
    let p := lastPunctIndexSpec pre
    if (jsMul07num N : ℤ) < p * 2 ^ 53 then pre.take (p + 1).toNat
    else pre ++ ('.' :: '.' :: '.' :: [])

/-- C7's words as a function: collapse whitespace runs and trim, then
capitalise the first character, and append a terminal period exactly when
the trimmed result is non-empty and lacks terminal punctuation. -/
def formatSpec (text : JStr) : JStr :=
  let r := jsTrim (collapseWs text)
  if r ≠ [] ∧ ¬ endsWithPunct r then capitalizeFirst r ++ ('.' :: [])
  else capitalizeFirst r

/-- C6's counterexample text: 63 `a`s, a period at index 63, then 27
`b`s — 91 characters, so one longer than the bound 90. -/
def sentence63 : JStr :=
  List.replicate 63 'a' ++ '.' :: List.replicate 27 'b'

/-- All MIME strings of the allow-list, flattened. -/
def allMimes : List JStr := (ALLOWED_TYPES.map Prod.snd).flatten

/- ----------------------------------------------------------------- -/
/- Concrete fixtures used by counterexamples and witnesses            -/
/- ----------------------------------------------------------------- -/

/-- A small in-bounds audio file. -/
def fAudio : JSFile := ⟨String.toList "a.mp3", String.toList "audio/mpeg", 5⟩

/-- A small in-bounds PDF file. -/
def fPdf : JSFile := ⟨String.toList "notes.pdf", String.toList "application/pdf", 1⟩

/-- A small file with an unrecognised MIME type. -/
def fTxt : JSFile := ⟨String.toList "a.txt", String.toList "text/plain", 5⟩

/-- A lecture identifier. -/
def lecL : JStr := ('L' :: [])

/-- The empty world: nothing in the bucket, no rows. -/
def w0 : WorldState := ⟨[], []⟩

/-- Every collaborator succeeds; the local recognition session is
supported and ends with no final result (silent audio). -/
def envLocalSilent : UploadEnv :=
  { storagePutError := none, dbInsertError := none, storageRemoveFails := false,
    durationResult := some 9, speech := ⟨true, .ended []⟩ }

/-- The row persisted by uploading `fAudio` with transcription enabled
in `envLocalSilent` at timestamp `0` into the empty world. -/
def row1 : DBRow :=
  { lecture_id := lecL, file_name := String.toList "a.mp3",
    file_type := String.toList "audio", file_size := 5,
    file_path := String.toList "lectures/L/0_a.mp3",
    mime_type := String.toList "audio/mpeg", duration := some 9,
    is_primary := false, transcript := some [],
    transcript_status := TStatus.completed }

/-- A database-insert failure message. -/
def boomMsg : JStr := String.toList "insert failed"

/-- Blob write succeeds, metadata insert fails, and the compensating
deletion also fails. -/
def envInsertFailRemoveFail : UploadEnv :=
  { storagePutError := none, dbInsertError := some boomMsg,
    storageRemoveFails := true, durationResult := none,
    speech := ⟨false, .ended []⟩ }

/-- Blob write succeeds, metadata insert fails, compensating deletion
succeeds. -/
def envInsertFailRemoveOk : UploadEnv :=
  { envInsertFailRemoveFail with storageRemoveFails := false }

/-- Blob write itself fails. -/
def envPutFail : UploadEnv :=
  { storagePutError := some (String.toList "storage down"), dbInsertError := none,
    storageRemoveFails := false, durationResult := none,
    speech := ⟨false, .ended []⟩ }

/-- `lastIndexOf` re-expressed over the reversed string (for induction):
`lastIndexOf s c = revLastIdx c s.reverse`. -/
def revLastIdx (c : Char) (rl : JStr) : ℤ :=
  if rl.indexOf c = rl.length then -1
  else ((rl.length : ℤ) - 1 - (rl.indexOf c : ℤ))

/-- `lastPunctIndexSpec` re-expressed over the reversed string. -/
def revLastPunct (rl : JStr) : ℤ :=
  match rl.findIdx? (fun c => c == '.' || c == '!' || c == '?') with
  | some i => (rl.length : ℤ) - 1 - (i : ℤ)
  | none => -1

/- ----------------------------------------------------------------- -/
/- Helper lemmas                                                      -/
/- ----------------------------------------------------------------- -/

theorem getFileType_eq_none_iff (m : JStr) :
    getFileType m = none ↔ m ∉ allMimes := by
  unfold getFileType allMimes
  rw [Option.map_eq_none', List.find?_eq_none]
  constructor
  · intro h hm
    rw [List.mem_flatten] at hm
    obtain ⟨l, hl, hml⟩ := hm
    rw [List.mem_map] at hl
    obtain ⟨p, hp, rfl⟩ := hl
    exact absurd (by simpa using hml) (by simpa using h p hp)
  · intro h p hp
    simp only [List.contains_eq_any_beq, List.any_eq_true, beq_iff_eq,
      not_exists, not_and] at *
    intro x hx hxm
    exact h (List.mem_flatten.mpr ⟨p.2, List.mem_map.mpr ⟨p, hp, rfl⟩, hxm ▸ hx⟩)

theorem capitalizeFirst_append_single (r : JStr) (h : r ≠ []) (c : Char) :
    capitalizeFirst (r ++ (c :: [])) = capitalizeFirst r ++ (c :: []) := by
  cases r with
  | nil => exact absurd rfl h
  | cons a l => simp [capitalizeFirst]

/-- C2.  `validateFile` accepts exactly the files whose size is at most
`100 * 1024 * 1024` bytes and whose declared MIME type occurs in the
allow-list; every rejection carries an error message. -/
theorem C2_validateFile_iff (f : JSFile) :
    ((validateFile f).1 = true ↔ f.size ≤ MAX_FILE_SIZE ∧ f.mimeType ∈ allMimes)
    ∧ ((validateFile f).1 = false → (validateFile f).2.isSome = true) := by
  unfold validateFile
  by_cases hs : f.size > MAX_FILE_SIZE
  · simp [hs, Nat.not_le.mpr hs]
  · by_cases hm : getFileType f.mimeType = none
    · simp [hs, hm, (getFileType_eq_none_iff f.mimeType).mp hm]
    · have : f.mimeType ∈ allMimes := by
        by_contra hmem
        exact hm ((getFileType_eq_none_iff f.mimeType).mpr hmem)
      simp [hs, hm, this, Nat.not_lt.mp hs]

/-- C2 witness: a 5-byte `audio/mpeg` file is accepted; an oversized
file is rejected with a message. -/
theorem C2_validateFile_iff_witness :
    (validateFile fAudio).1 = true
    ∧ (validateFile ⟨fAudio.name, fAudio.mimeType, 104857601⟩).2.isSome = true :=
  ⟨(C2_validateFile_iff fAudio).1.mpr (by decide),
   (C2_validateFile_iff ⟨fAudio.name, fAudio.mimeType, 104857601⟩).2 (by decide)⟩

/-- C9 counterexample: `text/plain` is not in the allow-list and the
size is within bounds — the claim says this is sufficient for
acceptance, yet `validateFile` rejects the file. -/
theorem C9_counterexample :
    getFileType (String.toList "text/plain") = none
    ∧ fTxt.size ≤ MAX_FILE_SIZE
    ∧ (validateFile fTxt).1 = false := by decide

/-- C9 amended: a *recognised* MIME type together with a byte size
within bounds is necessary and sufficient for acceptance. -/
theorem C9_amended_known_mime_iff (f : JSFile) :
    (validateFile f).1 = true
      ↔ ((getFileType f.mimeType).isSome = true ∧ f.size ≤ MAX_FILE_SIZE) := by
  unfold validateFile
  by_cases hs : f.size > MAX_FILE_SIZE
  · simp [hs, Nat.not_le.mpr hs]
  · by_cases hm : getFileType f.mimeType = none
    · simp [hs, hm]
    · simp [hs, hm, Option.isSome_iff_ne_none.mpr hm, Nat.not_lt.mp hs]

/-- C9 amended witness: the accepted audio file has a recognised MIME
type and an in-bounds size. -/
theorem C9_amended_known_mime_iff_witness :
    (validateFile fAudio).1 = true :=
  (C9_amended_known_mime_iff fAudio).mpr (by decide)

/-- C5.  When the recogniser reports an error the local transcription
rejects with a message carrying the underlying code — but when the audio
element reports a load error the returned promise never settles: the
rejection raised inside `playAudioForRecognition` is on an inner promise
the source never awaits, so no `MediaLoadError` reaches the caller and
the promise does not settle, contradicting the claim. -/
theorem C5_audio_error_never_settles :
    transcribeAudioModel ⟨true, LocalEvents.audioError⟩ = TOutcome.hangs
    ∧ transcribeAudioModel ⟨true, LocalEvents.recogError (String.toList "network")⟩
        = TOutcome.errored (recogErrorMsg (String.toList "network")) := by
  exact ⟨rfl, rfl⟩

/-- C4.  Routing of `transcribe`: the remote path is taken exactly when
`useExternal` is set or the capability is unsupported; otherwise the
local path runs, with a single remote fallback on a local error; and no
execution invokes the remote path more than once (the mock remote
service has no rejection path, so the catch block can only be entered
from a local failure). -/
theorem C4_transcribe_routing (name : JStr) (env : SpeechEnv) (useExternal : Bool) :
    (transcribe name env useExternal).remoteCalls ≤ 1
    ∧ (useExternal = true ∨ env.supported = false →
        (transcribe name env useExternal).remoteCalls = 1
        ∧ (transcribe name env useExternal).localCalls = 0)
    ∧ (useExternal = false → env.supported = true →
        (transcribe name env useExternal).localCalls = 1
        ∧ ((∃ m, transcribeAudioModel env = TOutcome.errored m) →
            (transcribe name env useExternal).remoteCalls = 1)
        ∧ ((∃ t, transcribeAudioModel env = TOutcome.ok t) →
            (transcribe name env useExternal).remoteCalls = 0)) := by
  obtain ⟨sup, ev⟩ := env
  cases useExternal <;> cases sup <;> cases ev <;>
    simp [transcribe, transcribeAudioModel]

/-- C4 witness: with `useExternal` set the remote path is called once;
with a supported local session whose recogniser errors, the remote
fallback is called once. -/
theorem C4_transcribe_routing_witness :
    (transcribe [] ⟨false, LocalEvents.ended []⟩ true).remoteCalls = 1
    ∧ (transcribe [] ⟨true, LocalEvents.recogError []⟩ false).remoteCalls = 1 :=
  ⟨((C4_transcribe_routing [] ⟨false, LocalEvents.ended []⟩ true).2.1
      (Or.inl rfl)).1,
   ((C4_transcribe_routing [] ⟨true, LocalEvents.recogError []⟩ false).2.2
      rfl rfl).2.1 ⟨recogErrorMsg [], rfl⟩⟩

/-- C7.  `formatTranscript` agrees everywhere with the claim's
description (collapse whitespace runs, trim, capitalise the first
character, and append a terminal period exactly when the trimmed result
is non-empty and lacks one), and satisfies the claim's three examples. -/
theorem C7_formatTranscript_spec :
    (∀ t : JStr, formatTranscript t = formatSpec t)
    ∧ formatTranscript [] = []
    ∧ formatTranscript (String.toList "hello world") = String.toList "Hello world."
    ∧ formatTranscript (String.toList "Already punctuated!")
        = String.toList "Already punctuated!" := by
  refine ⟨?_, by decide, by decide, by decide⟩
  intro t
  by_cases ht : t = []
  · subst ht; decide
  · unfold formatTranscript formatSpec
    rw [if_neg ht]
    dsimp only
    by_cases hc : jsTrim (collapseWs t) ≠ []
        ∧ ¬ endsWithPunct (jsTrim (collapseWs t)) = true
    · rw [if_pos hc, if_pos hc]
      exact capitalizeFirst_append_single _ hc.1 '.'
    · rw [if_neg hc, if_neg hc]

theorem lastIndexOf_eq_rev (s : JStr) (c : Char) :
    lastIndexOf s c = revLastIdx c s.reverse := by
  simp [lastIndexOf, revLastIdx, List.length_reverse]

theorem lastPunctIndexSpec_eq_rev (s : JStr) :
    lastPunctIndexSpec s = revLastPunct s.reverse := by
  unfold lastPunctIndexSpec revLastPunct
  cases h : s.reverse.findIdx? (fun c => c == '.' || c == '!' || c == '?') <;>
    simp [h, List.length_reverse]

theorem revLastIdx_le (c : Char) (rl : JStr) :
    revLastIdx c rl ≤ (rl.length : ℤ) - 1 := by
  unfold revLastIdx
  split <;> omega

theorem revLastIdx_cons_self (c : Char) (tl : JStr) :
    revLastIdx c (c :: tl) = (tl.length : ℤ) := by
  unfold revLastIdx
  rw [List.indexOf_cons_self]
  rw [if_neg (by simp [List.length_cons])]
  simp [List.length_cons]

theorem revLastIdx_cons_ne {a c : Char} (tl : JStr) (h : a ≠ c) :
    revLastIdx c (a :: tl) = revLastIdx c tl := by
  unfold revLastIdx
  rw [List.indexOf_cons_ne tl h]
  by_cases h2 : tl.indexOf c = tl.length
  · rw [if_pos (by simp [List.length_cons, h2]), if_pos h2]
  · rw [if_neg (by simp [List.length_cons]; omega), if_neg h2]
    simp [List.length_cons]
    omega

theorem revLastPunct_cons (a : Char) (tl : JStr) :
    revLastPunct (a :: tl) =
      if (a == '.' || a == '!' || a == '?') = true then (tl.length : ℤ)
      else revLastPunct tl := by
  unfold revLastPunct
  rw [List.findIdx?_cons]
  by_cases hp : (a == '.' || a == '!' || a == '?') = true
  · simp [hp, List.length_cons]
  · rw [if_neg hp, if_neg hp, List.findIdx?_succ]
    cases h : tl.findIdx? (fun c => c == '.' || c == '!' || c == '?') with
    | none => simp [h]
    | some i =>
      simp [h, List.length_cons]
      omega

theorem revMax_eq_revLastPunct (rl : JStr) :
    max (revLastIdx '.' rl) (max (revLastIdx '!' rl) (revLastIdx '?' rl))
      = revLastPunct rl := by
  induction rl with
  | nil => decide
  | cons a tl ih =>
    rw [revLastPunct_cons]
    by_cases hp : (a == '.' || a == '!' || a == '?') = true
    · rw [if_pos hp]
      have hb : ∀ c : Char, revLastIdx c (a :: tl) ≤ (tl.length : ℤ) := by
        intro c
        have := revLastIdx_le c (a :: tl)
        simp [List.length_cons] at this
        omega
      have ha : a = '.' ∨ a = '!' ∨ a = '?' := by
        rcases (by simpa using hp : (a = '.' ∨ a = '!') ∨ a = '?') with h | h
        · exact h.elim Or.inl (fun h2 => Or.inr (Or.inl h2))
        · exact Or.inr (Or.inr h)
      rcases ha with h | h | h <;> subst h
      · have hs := revLastIdx_cons_self '.' tl
        have h2 := hb '!'
        have h3 := hb '?'
        omega
      · have hs := revLastIdx_cons_self '!' tl
        have h2 := hb '.'
        have h3 := hb '?'
        omega
      · have hs := revLastIdx_cons_self '?' tl
        have h2 := hb '.'
        have h3 := hb '!'
        omega
    · rw [if_neg hp]
      have ha : a ≠ '.' ∧ a ≠ '!' ∧ a ≠ '?' := by
        constructor
        · intro h; exact hp (by simp [h])
        constructor
        · intro h; exact hp (by simp [h])
        · intro h; exact hp (by simp [h])
      rw [revLastIdx_cons_ne tl ha.1, revLastIdx_cons_ne tl ha.2.1,
        revLastIdx_cons_ne tl ha.2.2]
      exact ih

theorem lastMax_eq_lastPunctIndexSpec (s : JStr) :
    max (lastIndexOf s '.') (max (lastIndexOf s '!') (lastIndexOf s '?'))
      = lastPunctIndexSpec s := by
  rw [lastIndexOf_eq_rev, lastIndexOf_eq_rev, lastIndexOf_eq_rev,
    lastPunctIndexSpec_eq_rev]
  exact revMax_eq_revLastPunct s.reverse

set_option maxRecDepth 40000 in
/-- C6 counterexample.  `sentence63` has 91 characters with its only
terminal punctuation at index 63 and the bound is `N = 90`, so the
rightmost punctuation sits exactly at `0.7 * N = 63` — not *past* it.
The claim therefore mandates the ellipsis branch, but the source
compares against the IEEE-754 double `90 * 0.7 < 63` and truncates after
the period instead. -/
theorem C6_counterexample :
    generateSummary sentence63 90 ≠ claimSummary sentence63 90
    ∧ generateSummary sentence63 90 = List.replicate 63 'a' ++ ('.' :: [])
    ∧ claimSummary sentence63 90
        = (sentence63.take 90) ++ ('.' :: '.' :: '.' :: []) := by
  refine ⟨by decide, by decide, by decide⟩

/-- C6 amended: `generateSummary` returns the text unchanged when it
fits the bound, otherwise a result of length at most `N + 3`, truncating
immediately after the rightmost terminal punctuation of the length-`N`
prefix when that punctuation lies past the double-precision product
`N * 0.7`, and appending an ellipsis to the raw prefix otherwise. -/
theorem C6_amended_generateSummary (t : JStr) (N : ℕ) :
    generateSummary t N = summarySpecFl t N
    ∧ (N < t.length → (generateSummary t N).length ≤ N + 3) := by
  constructor
  · unfold generateSummary summarySpecFl
    by_cases h0 : t = []
    · subst h0; simp
    · rw [if_neg h0]
      by_cases hl : t.length ≤ N
      · rw [if_pos hl, if_pos hl]
      · rw [if_neg hl, if_neg hl]
        dsimp only
        rw [lastMax_eq_lastPunctIndexSpec]
  · intro hN
    have h0 : t ≠ [] := by
      intro h
      subst h
      simp at hN
    unfold generateSummary
    rw [if_neg h0, if_neg (by omega : ¬ t.length ≤ N)]
    dsimp only
    have h3 : ('.' :: '.' :: '.' :: ([] : JStr)).length = 3 := rfl
    split
    · rw [List.length_take, List.length_take]
      omega
    · rw [List.length_append, List.length_take, h3]
      omega

/-- C6 amended witness: a concrete over-long text stays within the
`N + 3` bound. -/
theorem C6_amended_generateSummary_witness :
    (generateSummary (String.toList "abcde") 2).length ≤ 2 + 3 :=
  (C6_amended_generateSummary (String.toList "abcde") 2).2 (by decide)

theorem finishInsert_rows (env : UploadEnv) (w : WorldState) (s1 : List JStr)
    (fp : JStr) (row : DBRow) :
    (finishInsert env w s1 fp row).rows = w.rows
    ∨ (finishInsert env w s1 fp row).rows = w.rows ++ [row] := by
  unfold finishInsert
  cases hdb : env.dbInsertError with
  | some m => exact Or.inl rfl
  | none => exact Or.inr rfl

theorem finishInsert_insertFail (env : UploadEnv) (w : WorldState)
    (s1 : List JStr) (fp : JStr) (row : DBRow) (m : JStr)
    (h3 : env.dbInsertError = some m) :
    (finishInsert env w s1 fp row).result = some ⟨false, none, some m⟩
    ∧ (finishInsert env w s1 fp row).trace.storageRemoves = [fp]
    ∧ (finishInsert env w s1 fp row).rows = w.rows
    ∧ (env.storageRemoveFails = false →
        (finishInsert env w s1 fp row).store = s1.erase fp) := by
  unfold finishInsert
  rw [h3]
  refine ⟨rfl, rfl, rfl, fun h => ?_⟩
  rw [if_neg (by simp [h])]

/-- Every `uploadFile` run either leaves the table unchanged or appends
exactly one row, whose transcript status is `pending`, `completed` with a
non-null transcript, or `failed` with a null transcript. -/
theorem uploadFile_rows_cases (file : JSFile) (lid : JStr) (ip et : Bool)
    (ts : ℕ) (env : UploadEnv) (w : WorldState) :
    (uploadFile file lid ip et ts env w).rows = w.rows
    ∨ ∃ row, (uploadFile file lid ip et ts env w).rows = w.rows ++ [row]
        ∧ (row.transcript_status = TStatus.pending
            ∨ (row.transcript_status = TStatus.completed ∧ row.transcript ≠ none)
            ∨ (row.transcript_status = TStatus.failed ∧ row.transcript = none)) := by
  unfold uploadFile
  dsimp only
  by_cases hv : (validateFile file).1 = false
  · rw [if_pos hv]
    exact Or.inl rfl
  · rw [if_neg hv]
    cases hput : storagePutOutcome env w.store (generateFilePath lid ts file.name) with
    | some m => exact Or.inl rfl
    | none =>
      dsimp only
      by_cases het : (et && (getFileType file.mimeType == some FileKind.audio)) = true
      · rw [if_pos het]
        cases houtcome : (transcribe file.name env.speech false).outcome with
        | hangs => exact Or.inl rfl
        | ok t =>
          rcases finishInsert_rows env w _ _ _ with h | h
          · exact Or.inl h
          · exact Or.inr ⟨_, h, Or.inr (Or.inl ⟨rfl, by simp⟩)⟩
        | errored m =>
          rcases finishInsert_rows env w _ _ _ with h | h
          · exact Or.inl h
          · exact Or.inr ⟨_, h, Or.inr (Or.inr ⟨rfl, rfl⟩)⟩
      · rw [if_neg het]
        rcases finishInsert_rows env w _ _ _ with h | h
        · exact Or.inl h
        · exact Or.inr ⟨_, h, Or.inl rfl⟩

/-- C10.  Any row present after an `uploadFile` run that was not already
in the table has a `transcript_status` other than `processing`: the
status is inserted exactly once, after transcription has finished or
been skipped, so the intermediate `processing` value is never persisted. -/
theorem C10_no_processing_persisted (file : JSFile) (lid : JStr) (ip et : Bool)
    (ts : ℕ) (env : UploadEnv) (w : WorldState) :
    ∀ r ∈ (uploadFile file lid ip et ts env w).rows,
      r ∈ w.rows ∨ r.transcript_status ≠ TStatus.processing := by
  intro r hr
  rcases uploadFile_rows_cases file lid ip et ts env w with h | ⟨row, h, hst⟩
  · exact Or.inl (h ▸ hr)
  · rw [h, List.mem_append] at hr
    rcases hr with hr | hr
    · exact Or.inl hr
    · right
      have hrow : r = row := by simpa using hr
      subst hrow
      rcases hst with h1 | ⟨h1, _⟩ | ⟨h1, _⟩ <;> rw [h1] <;> decide

/-- C10 witness: the row persisted by a concrete transcribing upload has
a status other than `processing`. -/
theorem C10_no_processing_persisted_witness :
    row1.transcript_status ≠ TStatus.processing :=
  (C10_no_processing_persisted fAudio lecL false true 0 envLocalSilent w0 row1
    (by decide)).resolve_left (by decide)

/-- C1 counterexample.  A supported local recognition session that ends
with no final results resolves with the empty transcript; the upload
then persists `transcript_status = 'completed'` with `transcript` equal
to the *empty* string, contradicting the claimed non-emptiness. -/
theorem C1_counterexample :
    (uploadFile fAudio lecL false true 0 envLocalSilent w0).rows = [row1]
    ∧ row1.transcript_status = TStatus.completed
    ∧ row1.transcript = some [] := by
  refine ⟨by decide, by decide, by decide⟩

/-- C1 amended: every freshly persisted row with
`transcript_status = 'completed'` has a non-null transcript (which may,
however, be the empty string). -/
theorem C1_amended_completed_not_null (file : JSFile) (lid : JStr) (ip et : Bool)
    (ts : ℕ) (env : UploadEnv) (w : WorldState) :
    ∀ r ∈ (uploadFile file lid ip et ts env w).rows,
      r ∉ w.rows → r.transcript_status = TStatus.completed →
        r.transcript ≠ none := by
  intro r hr hnew hc
  rcases uploadFile_rows_cases file lid ip et ts env w with h | ⟨row, h, hst⟩
  · exact absurd (h ▸ hr) hnew
  · rw [h, List.mem_append] at hr
    rcases hr with hr | hr
    · exact absurd hr hnew
    · have hrow : r = row := by simpa using hr
      subst hrow
      rcases hst with h1 | ⟨_, h2⟩ | ⟨h1, _⟩
      · exact absurd (h1.symm.trans hc) (by decide)
      · exact h2
      · exact absurd (h1.symm.trans hc) (by decide)

/-- C1 amended witness: the concrete completed row has a non-null
transcript. -/
theorem C1_amended_completed_not_null_witness :
    row1.transcript ≠ none :=
  C1_amended_completed_not_null fAudio lecL false true 0 envLocalSilent w0 row1
    (by decide) (by decide) (by decide)

/-- C8.  A validation failure returns before any collaborator call: the
trace is empty and both stores are untouched.  A storage-write failure
returns with no database insert and both stores untouched. -/
theorem C8_aborts_cleanly (file : JSFile) (lid : JStr) (ip et : Bool)
    (ts : ℕ) (env : UploadEnv) (w : WorldState) :
    ((validateFile file).1 = false →
      (uploadFile file lid ip et ts env w).result
          = some ⟨false, none, (validateFile file).2⟩
      ∧ (uploadFile file lid ip et ts env w).trace = ⟨[], 0, []⟩
      ∧ (uploadFile file lid ip et ts env w).store = w.store
      ∧ (uploadFile file lid ip et ts env w).rows = w.rows)
    ∧ (∀ m : JStr, (validateFile file).1 = true →
        storagePutOutcome env w.store (generateFilePath lid ts file.name)
            = some m →
          (uploadFile file lid ip et ts env w).result = some ⟨false, none, some m⟩
          ∧ (uploadFile file lid ip et ts env w).trace.dbInserts = 0
          ∧ (uploadFile file lid ip et ts env w).store = w.store
          ∧ (uploadFile file lid ip et ts env w).rows = w.rows) := by
  constructor
  · intro h
    unfold uploadFile
    dsimp only
    rw [if_pos h]
    exact ⟨rfl, rfl, rfl, rfl⟩
  · intro m h1 h2
    unfold uploadFile
    dsimp only
    rw [if_neg (by simp [h1]), h2]
    exact ⟨rfl, rfl, rfl, rfl⟩

/-- C8 witness: a disallowed-type upload makes zero collaborator calls;
an upload whose blob write fails performs no database insert. -/
theorem C8_aborts_cleanly_witness :
    (uploadFile fTxt lecL false false 0 envLocalSilent w0).trace = ⟨[], 0, []⟩
    ∧ (uploadFile fPdf lecL false false 0 envPutFail w0).trace.dbInserts = 0 :=
  ⟨((C8_aborts_cleanly fTxt lecL false false 0 envLocalSilent w0).1
      (by decide)).2.1,
   ((C8_aborts_cleanly fPdf lecL false false 0 envPutFail w0).2
      (String.toList "storage down") (by decide) (by decide)).2.1⟩

/-- C3 counterexample.  With the compensating deletion failing (its
result is never inspected by the source), the run still returns the
database failure and persists no row — but the blob store *does* still
contain the generated key afterwards, contradicting the claim's
unconditional "the blob store does not contain the generated key". -/
theorem C3_counterexample :
    (validateFile fPdf).1 = true
    ∧ envInsertFailRemoveFail.storagePutError = none
    ∧ envInsertFailRemoveFail.dbInsertError = some boomMsg
    ∧ (uploadFile fPdf lecL false false 7 envInsertFailRemoveFail w0).result
        = some ⟨false, none, some boomMsg⟩
    ∧ (uploadFile fPdf lecL false false 7 envInsertFailRemoveFail w0).rows = []
    ∧ generateFilePath lecL 7 fPdf.name
        ∈ (uploadFile fPdf lecL false false 7 envInsertFailRemoveFail w0).store := by
  refine ⟨by decide, by decide, by decide, by decide, by decide, by decide⟩

/-- C3 amended: when the blob write succeeds, the metadata insert fails
and the transcription step settles, `uploadFile` calls the compensating
deletion on the generated key and returns the database failure without
escalating the deletion's own result; no row is persisted, and *when the
compensating deletion succeeds* the blob store no longer contains the
generated key. -/
theorem C3_amended_rollback (file : JSFile) (lid : JStr) (ip et : Bool)
    (ts : ℕ) (env : UploadEnv) (w : WorldState) (m : JStr)
    (h1 : (validateFile file).1 = true)
    (h2 : storagePutOutcome env w.store (generateFilePath lid ts file.name) = none)
    (h3 : env.dbInsertError = some m)
    (h4 : transcriptionHangs file et env = false) :
    (uploadFile file lid ip et ts env w).result = some ⟨false, none, some m⟩
    ∧ (uploadFile file lid ip et ts env w).trace.storageRemoves
        = [generateFilePath lid ts file.name]
    ∧ (uploadFile file lid ip et ts env w).rows = w.rows
    ∧ (env.storageRemoveFails = false →
        generateFilePath lid ts file.name
          ∉ (uploadFile file lid ip et ts env w).store) := by
  have hfp : generateFilePath lid ts file.name ∉ w.store := by
    intro hmem
    rw [storagePutOutcome, if_pos hmem] at h2
    exact Option.noConfusion h2
  have herase : (w.store ++ [generateFilePath lid ts file.name]).erase
      (generateFilePath lid ts file.name) = w.store := by
    rw [List.erase_append_right _ hfp, List.erase_cons_head, List.append_nil]
  unfold uploadFile
  dsimp only
  rw [if_neg (by simp [h1]), h2]
  dsimp only
  by_cases het : (et && (getFileType file.mimeType == some FileKind.audio)) = true
  · rw [if_pos het]
    cases houtcome : (transcribe file.name env.speech false).outcome with
    | hangs =>
      exfalso
      have hh : transcriptionHangs file et env = true := by
        simp [transcriptionHangs, het, houtcome]
      exact absurd (hh.symm.trans h4) (by decide)
    | ok t =>
      obtain ⟨ha, hb, hc, hd⟩ := finishInsert_insertFail env w _ _ _ m h3
      exact ⟨ha, hb, hc, fun hrf => by rw [hd hrf, herase]; exact hfp⟩
    | errored e =>
      obtain ⟨ha, hb, hc, hd⟩ := finishInsert_insertFail env w _ _ _ m h3
      exact ⟨ha, hb, hc, fun hrf => by rw [hd hrf, herase]; exact hfp⟩
  · rw [if_neg het]
    obtain ⟨ha, hb, hc, hd⟩ := finishInsert_insertFail env w _ _ _ m h3
    exact ⟨ha, hb, hc, fun hrf => by rw [hd hrf, herase]; exact hfp⟩

/-- C3 amended witness: in a concrete failing-insert run whose
compensating deletion succeeds, the generated key is absent from the
store and no row was persisted. -/
theorem C3_amended_rollback_witness :
    generateFilePath lecL 7 fPdf.name
        ∉ (uploadFile fPdf lecL false false 7 envInsertFailRemoveOk w0).store
    ∧ (uploadFile fPdf lecL false false 7 envInsertFailRemoveOk w0).rows = [] :=
  have h := C3_amended_rollback fPdf lecL false false 7 envInsertFailRemoveOk w0
    boomMsg (by decide) (by decide) (by decide) (by decide)
  ⟨h.2.2.2 rfl, h.2.2.1⟩
